import Mathlib

/-!
Shallow embedding of the Smart-Traffic-Management-System controller.

Part 1: `SimpleTrafficController` from `VehicleCount.py` — the adaptive
phase scheduler (`should_switch_phase`, `control_intersection`) and the
observation adapter (`get_traffic_data`).

Part 2: the emergency preemptor from `tempCodeRunnerFile.py`
(`find_phase_for_lane`, `process_emergency_vehicles`).

Simulation times are modelled as `Int` (SUMO reports nonnegative seconds;
`Int` keeps the subtraction `now - phase_start_time` exact). Waiting
counts and phase indices are `Nat`.
-/

namespace Traffic

/-- Configuration attributes set in `SimpleTrafficController.__init__`. -/
structure Config where
  main_road_phase : Nat
  side_road_phase : Nat
  min_green_time : Int
  max_green_time : Int
  yellow_time : Int
deriving DecidableEq

/-- The literal values assigned in `__init__`. -/
def defaultConfig : Config :=
  { main_road_phase := 0
    side_road_phase := 2
    min_green_time := 15
    max_green_time := 60
    yellow_time := 3 }

/-- The dict returned by `get_traffic_data`. -/
structure TrafficData where
  main_road_waiting : Nat
  side_road_waiting : Nat
  total_waiting : Nat
deriving DecidableEq

/-- One entry of `self.intersection_state`. -/
structure IState where
  current_phase : Nat
  phase_start_time : Int
  last_switch_time : Int
deriving DecidableEq

/-- Embeds `should_switch_phase(tl_id, traffic_data)`. `current_phase` is the
value read from the backend (`traci.trafficlight.getPhase`), `now` the
value of `traci.simulation.getTime()`. -/
def should_switch_phase (cfg : Config) (st : IState) (current_phase : Nat)
    (traffic_data : TrafficData) (now : Int) : Bool :=
  let phase_duration := now - st.phase_start_time
  if phase_duration < cfg.min_green_time then
    false
  else if phase_duration ≥ cfg.max_green_time then
    true
  else if current_phase = cfg.main_road_phase then
    decide (traffic_data.side_road_waiting > traffic_data.main_road_waiting * 2)
  else
    decide (traffic_data.main_road_waiting > traffic_data.side_road_waiting)

/-- Embeds `control_intersection(tl_id)`: returns the updated intersection state
together with the phase passed to `traci.trafficlight.setPhase`, when a
switch is commanded (`none` when no command is issued). -/
def control_intersection (cfg : Config) (st : IState) (backend_phase : Nat)
    (traffic_data : TrafficData) (now : Int) : IState × Option Nat :=
  let st1 := if st.phase_start_time = 0 then { st with phase_start_time := now } else st
  if should_switch_phase cfg st1 backend_phase traffic_data now then
    let new_phase :=
      if backend_phase = cfg.main_road_phase then cfg.side_road_phase
      else cfg.main_road_phase
    ({ current_phase := new_phase, phase_start_time := now, last_switch_time := now },
      some new_phase)
  else
    (st1, none)

/-- One controlled lane as `get_traffic_data` sees it: its identifier and
the results of the two backend reads (`getLastStepVehicleNumber`,
`getLastStepHaltingNumber`); `none` models the read raising. -/
structure Lane where
  lid : String
  vehicleNumber : Option Nat
  haltingNumber : Option Nat
deriving DecidableEq

/-- Pattern `p` matches at the front of `s`. -/
def leadMatch : List Char → List Char → Bool
  | [], _ => true
  | _ :: _, [] => false
  | c :: cs, d :: ds => c == d && leadMatch cs ds

/-- Pattern `p` occurs as a contiguous run of `s` (Python's `p in s` on strings). -/
def subOf (p : List Char) : List Char → Bool
  | [] => leadMatch p []
  | d :: ds => leadMatch p (d :: ds) || subOf p ds

/-- Python `pat in s` for strings. -/
def strIn (pat s : String) : Bool :=
  subOf pat.data s.data

/-- The lane-grouping rule of `get_traffic_data`:
`"EB" in lane or "WB" in lane` selects the main road. -/
def isMainLane (l : Lane) : Bool :=
  strIn "EB" l.lid || strIn "WB" l.lid

/-- Both backend reads for the lane succeed. -/
def laneReadsOk (l : Lane) : Bool :=
  l.vehicleNumber.isSome && l.haltingNumber.isSome

/-- The accumulation step of `get_traffic_data`'s lane loop:
adds the lane's halting count to the main- or side-road total. -/
def laneAccum (acc : Nat × Nat) (l : Lane) : Nat × Nat :=
  let waiting_count := l.haltingNumber.getD 0
  if isMainLane l then (acc.1 + waiting_count, acc.2) else (acc.1, acc.2 + waiting_count)

/-- Embeds `get_traffic_data(tl_id)`: the whole body is a single `try`; a read
failure on any lane jumps to the `except` branch, which returns the
all-zero snapshot. -/
def get_traffic_data (lanes : List Lane) : TrafficData :=
  if lanes.all laneReadsOk then
    let counts := lanes.foldl laneAccum (0, 0)
    { main_road_waiting := counts.1
      side_road_waiting := counts.2
      total_waiting := counts.1 + counts.2 }
  else
    { main_road_waiting := 0, side_road_waiting := 0, total_waiting := 0 }

/-- Sum of halting counts over the lanes grouped into the main road. -/
def mainRoadSum (lanes : List Lane) : Nat :=
  (lanes.filter isMainLane).foldr (fun l n => l.haltingNumber.getD 0 + n) 0

/-- Sum of halting counts over the lanes grouped into the side road. -/
def sideRoadSum (lanes : List Lane) : Nat :=
  (lanes.filter (fun l => !isMainLane l)).foldr (fun l n => l.haltingNumber.getD 0 + n) 0

/-! Part 2: `tempCodeRunnerFile.py` — emergency preemption. -/

/-- One phase of a traffic-light program: its state string
(a character per controlled link, `G` = green). -/
structure TLPhase where
  state : List Char
deriving DecidableEq

/-- One program from `getCompleteRedYellowGreenDefinition`. -/
structure TLProgram where
  phases : List TLPhase
deriving DecidableEq

/-- Static backend data for one traffic light: its program definitions
and its ordered controlled lanes. -/
structure TLSDef where
  programs : List TLProgram
  controlledLanes : List String

/-- The inner lane scan of `find_phase_for_lane`: Python's
`for i, l in enumerate(controlled_lanes): if l == laneID and
phase.state[i] == 'G'`. `i` is the running index into the state string. -/
def greenScan (laneID : String) (st : List Char) : List String → Nat → Bool
  | [], _ => false
  | l :: ls, i => (l == laneID && st.get? i == some 'G') || greenScan laneID st ls (i + 1)

/-- The phase loop of `find_phase_for_lane` inside one program:
returns the first phase index whose state marks `laneID` green. -/
def findInPhases (lanes : List String) (laneID : String) :
    List TLPhase → Nat → Option Nat
  | [], _ => none
  | p :: ps, idx =>
    if greenScan laneID p.state lanes 0 then some idx
    else findInPhases lanes laneID ps (idx + 1)

/-- The program loop of `find_phase_for_lane`. -/
def findInPrograms (lanes : List String) (laneID : String) :
    List TLProgram → Option Nat
  | [] => none
  | prog :: rest =>
    match findInPhases lanes laneID prog.phases 0 with
    | some i => some i
    | none => findInPrograms lanes laneID rest

/-- Embeds `find_phase_for_lane(tlsID, laneID)`. `env` maps a traffic-light id
to its static definition (programs and controlled lanes). -/
def find_phase_for_lane (env : String → TLSDef) (tlsID laneID : String) : Option Nat :=
  findInPrograms (env tlsID).controlledLanes laneID (env tlsID).programs

/-- A vehicle as the preemptor reads it from the backend: id, type,
`getNextTLS` result (traffic-light id, link index, distance, state
character) and current lane. -/
structure Vehicle where
  vid : String
  vtype : String
  nextTLS : List (String × Nat × Nat × String)
  laneID : String

/-- A backend command or console signal issued by the preemptor. -/
inductive Cmd where
  | setPhase (tls : String) (phase : Nat)
  | setPhaseDuration (tls : String) (duration : Nat)
  | resume (tls : String)
deriving DecidableEq

/-- Mutable data threaded through one `process_emergency_vehicles` step:
the `adjusted_tls` dict (association list in insertion order), the
`active_tls` set, the backend's per-light current phase and phase
duration, and the commands issued so far this step. -/
structure StepState where
  adjusted : List (String × Nat)
  active : List String
  phase : String → Nat
  duration : String → Nat
  cmds : List Cmd

/-- Python dict read `d.get(k)`: the value bound to `k`, if any. -/
def alGet (k : String) : List (String × Nat) → Option Nat
  | [] => none
  | (k', v') :: rest => if k' = k then some v' else alGet k rest

/-- Python dict assignment `d[k] = v`: updates the first binding of `k`
in place, or appends a new binding. -/
def alSet (k : String) (v : Nat) : List (String × Nat) → List (String × Nat)
  | [] => [(k, v)]
  | (k', v') :: rest =>
    if k' = k then (k', v) :: rest else (k', v') :: alSet k v rest

/-- Python set membership `k in s`. -/
def listHas (k : String) : List String → Bool
  | [] => false
  | t :: ts => if t = k then true else listHas k ts

/-- New phase duration on the extension path:
`max(20, traci.trafficlight.getPhaseDuration(tlsID) + 10)`. -/
def extendedDuration (d : Nat) : Nat := max 20 (d + 10)

/-- The request a vehicle raises this step: its next traffic light
together with the phase resolved for its current lane, when both exist. -/
def requestOf (env : String → TLSDef) (v : Vehicle) : Option (String × Nat) :=
  match v.nextTLS with
  | [] => none
  | (tlsID, _, _, _) :: _ =>
    match find_phase_for_lane env tlsID v.laneID with
    | none => none
    | some desired => some (tlsID, desired)

/-- The body of the vehicle loop in `process_emergency_vehicles` for one
vehicle. -/
def vehStep (env : String → TLSDef) (s : StepState) (veh : Vehicle) : StepState :=
  match requestOf env veh with
  | none => s
  | some (tlsID, desired_phase) =>
    let current_phase := s.phase tlsID
    let s := { s with active := tlsID :: s.active }
    if alGet tlsID s.adjusted ≠ some desired_phase then
      let s := { s with adjusted := alSet tlsID desired_phase s.adjusted }
      if current_phase = desired_phase then
        let new_duration := extendedDuration (s.duration tlsID)
        { s with
          duration := fun t => if t = tlsID then new_duration else s.duration t
          cmds := s.cmds ++ [Cmd.setPhaseDuration tlsID new_duration] }
      else
        { s with
          phase := fun t => if t = tlsID then desired_phase else s.phase t
          duration := fun t => if t = tlsID then 10 else s.duration t
          cmds := s.cmds ++ [Cmd.setPhase tlsID desired_phase,
                             Cmd.setPhaseDuration tlsID 10] }
    else
      s

/-- The filter building `emergency_vehicles`. -/
def emergencyFilter (vs : List Vehicle) : List Vehicle :=
  vs.filter (fun v => v.vtype == "emergency")

/-- Embeds `process_emergency_vehicles(adjusted_tls, step)`: filters the
emergency vehicles, runs the vehicle loop, then deletes every
`adjusted_tls` entry whose light was not active this step, printing a
reset message (modelled as a `Cmd.resume`) for each deleted entry. -/
def process_emergency_vehicles (env : String → TLSDef) (vehicles : List Vehicle)
    (adjusted0 : List (String × Nat)) (phase0 duration0 : String → Nat) : StepState :=
  let s0 : StepState :=
    { adjusted := adjusted0, active := [], phase := phase0
      duration := duration0, cmds := [] }
  let s := (emergencyFilter vehicles).foldl (vehStep env) s0
  let removed := (s.adjusted.filter (fun p => !listHas p.1 s.active)).map Prod.fst
  { s with
    adjusted := s.adjusted.filter (fun p => listHas p.1 s.active)
    cmds := s.cmds ++ removed.map Cmd.resume }

/-- Some vehicle in `vs` raises a live, resolvable request for light `T`
this step. -/
def anyLiveRequest (env : String → TLSDef) (T : String) (vs : List Vehicle) : Bool :=
  vs.any (fun v =>
    match requestOf env v with
    | some (t, _) => decide (t = T)
    | none => false)

/-- The phase requested for `T` by the last vehicle (in iteration order)
with a live, resolvable request for `T`. -/
def lastGrantedPhase (env : String → TLSDef) (T : String) : List Vehicle → Option Nat
  | [] => none
  | v :: vs =>
    match lastGrantedPhase env T vs with
    | some p => some p
    | none =>
      match requestOf env v with
      | some (t, p) => if t = T then some p else none
      | none => none

/-- The command is a backend command (`setPhase` or `setPhaseDuration`)
addressed to light `T`. -/
def cmdTargets (T : String) : Cmd → Bool
  | Cmd.setPhase t _ => decide (t = T)
  | Cmd.setPhaseDuration t _ => decide (t = T)
  | Cmd.resume _ => false

/-- Concrete single-light environment used for the concrete scenarios:
one program with two phases, phase 0 green for lane `L1`, phase 1 green
for lane `L2`. -/
def cexEnv : String → TLSDef := fun _ =>
  { programs := [{ phases := [{ state := ['G', 'r'] }, { state := ['r', 'G'] }] }]
    controlledLanes := ["L1", "L2"] }

/-- An emergency vehicle 5 m from light `J`, on the lane served by phase 0. -/
def cexVehA : Vehicle :=
  { vid := "v1", vtype := "emergency", nextTLS := [("J", 0, 5, "G")], laneID := "L1" }

/-- An emergency vehicle 50 m from light `J`, on the lane served by phase 1. -/
def cexVehB : Vehicle :=
  { vid := "v2", vtype := "emergency", nextTLS := [("J", 0, 50, "G")], laneID := "L2" }

/-- A vehicle whose current lane is green in no phase of `cexEnv`. -/
def cexVehC : Vehicle :=
  { vid := "v3", vtype := "emergency", nextTLS := [("J", 0, 7, "G")], laneID := "L9" }

/-- An emergency vehicle approaching a second light `K`, on lane `L1`. -/
def cexVehD : Vehicle :=
  { vid := "v4", vtype := "emergency", nextTLS := [("K", 0, 9, "G")], laneID := "L1" }

/-- A healthy main-road lane: both reads succeed, 5 halting vehicles. -/
def cexLaneA : Lane := { lid := "EB_1", vehicleNumber := some 3, haltingNumber := some 5 }

/-- A side-road lane whose backend reads raise. -/
def cexLaneB : Lane := { lid := "NB_1", vehicleNumber := none, haltingNumber := none }


end Traffic

namespace Traffic

/-! Helper lemmas for the scheduler. -/

theorem laneAccum_foldl (lanes : List Lane) (a b : Nat) :
    lanes.foldl laneAccum (a, b) = (a + mainRoadSum lanes, b + sideRoadSum lanes) := by
  induction lanes generalizing a b with
  | nil => simp [mainRoadSum, sideRoadSum]
  | cons l ls ih =>
    by_cases h : isMainLane l = true
    · simp only [List.foldl_cons, laneAccum, h, if_pos, ih]
      simp only [mainRoadSum, sideRoadSum, List.filter_cons, h]
      simp [mainRoadSum, sideRoadSum] at ih ⊢
      omega
    · simp only [List.foldl_cons, laneAccum, h, if_neg, ih]
      simp only [mainRoadSum, sideRoadSum, List.filter_cons, h]
      simp [mainRoadSum, sideRoadSum, h] at ih ⊢
      omega

/-- C1: with elapsed phase time strictly below `minGreenTime`,
`should_switch_phase` returns `false` whatever the snapshot holds. -/
theorem min_green_no_switch (cfg : Config) (st : IState) (cp : Nat)
    (data : TrafficData) (now : Int)
    (h : now - st.phase_start_time < cfg.min_green_time) :
    should_switch_phase cfg st cp data now = false := by
  simp only [should_switch_phase]
  rw [if_pos h]

theorem min_green_no_switch_witness :
    (5 : Int) - (0 : Int) < (15 : Int) ∧
      should_switch_phase defaultConfig ⟨0, 0, 0⟩ 0 ⟨0, 1000, 1000⟩ 5 = false :=
  ⟨by decide, min_green_no_switch defaultConfig ⟨0, 0, 0⟩ 0 ⟨0, 1000, 1000⟩ 5 (by decide)⟩

/-- C2: once elapsed phase time reaches `maxGreenTime` the decision is a
switch regardless of demand (given the configuration invariant
`minGreenTime ≤ maxGreenTime`), and any switch `control_intersection`
applies goes to the side-road phase from the main-road phase and to the
main-road phase from any other phase. -/
theorem max_green_forced_switch (cfg : Config) (st : IState) (cp : Nat)
    (data : TrafficData) (now : Int) :
    (cfg.min_green_time ≤ cfg.max_green_time →
      now - st.phase_start_time ≥ cfg.max_green_time →
      should_switch_phase cfg st cp data now = true) ∧
    (∀ p, (control_intersection cfg st cp data now).2 = some p →
      p = if cp = cfg.main_road_phase then cfg.side_road_phase else cfg.main_road_phase) := by
  constructor
  · intro hcfg hge
    simp only [should_switch_phase]
    rw [if_neg (by omega), if_pos hge]
  · intro p hp
    simp only [control_intersection] at hp
    split at hp <;> split at hp <;> simp_all

theorem max_green_forced_switch_witness :
    should_switch_phase defaultConfig ⟨0, 1, 0⟩ 1 ⟨0, 0, 0⟩ 100 = true ∧
      (0 : Nat) = (if (1 : Nat) = defaultConfig.main_road_phase then defaultConfig.side_road_phase
        else defaultConfig.main_road_phase) :=
  ⟨(max_green_forced_switch defaultConfig ⟨0, 1, 0⟩ 1 ⟨0, 0, 0⟩ 100).1 (by decide) (by decide),
    (max_green_forced_switch defaultConfig ⟨0, 1, 0⟩ 1 ⟨0, 0, 0⟩ 100).2 0 (by decide)⟩

/-- C3: in the adaptive window (`minGreenTime ≤ elapsed < maxGreenTime`)
the decision is a switch iff, in the main-road phase, side-road waiting
strictly exceeds twice main-road waiting, and, in any other phase,
main-road waiting strictly exceeds side-road waiting. -/
theorem adaptive_window_rule (cfg : Config) (st : IState) (cp : Nat)
    (data : TrafficData) (now : Int)
    (h1 : cfg.min_green_time ≤ now - st.phase_start_time)
    (h2 : now - st.phase_start_time < cfg.max_green_time) :
    (cp = cfg.main_road_phase →
      (should_switch_phase cfg st cp data now = true ↔
        data.side_road_waiting > data.main_road_waiting * 2)) ∧
    (cp ≠ cfg.main_road_phase →
      (should_switch_phase cfg st cp data now = true ↔
        data.main_road_waiting > data.side_road_waiting)) := by
  constructor
  · intro hcp
    simp only [should_switch_phase]
    rw [if_neg (by omega), if_neg (by omega), if_pos hcp]
    simp
  · intro hcp
    simp only [should_switch_phase]
    rw [if_neg (by omega), if_neg (by omega), if_neg hcp]
    simp

theorem adaptive_window_rule_witness :
    should_switch_phase defaultConfig ⟨0, 0, 0⟩ 0 ⟨2, 10, 12⟩ 20 = true :=
  ((adaptive_window_rule defaultConfig ⟨0, 0, 0⟩ 0 ⟨2, 10, 12⟩ 20
      (by decide) (by decide)).1 rfl).2 (by decide)

/-- C7 counterexample: at `phase_start_time = 0`, `now = 20`, the
decision is no-switch, yet `control_intersection` mutates the state
(`phase_start_time` becomes 20), refuting "no-switch leaves state
unchanged". -/
theorem no_switch_state_changed_cex :
    (control_intersection defaultConfig ⟨0, 0, 0⟩ 0 ⟨0, 0, 0⟩ 20).2 = none ∧
      (control_intersection defaultConfig ⟨0, 0, 0⟩ 0 ⟨0, 0, 0⟩ 20).1 ≠ ⟨0, 0, 0⟩ := by
  constructor
  · decide
  · decide

/-- C7 amended: a switch step sets all three fields
(`currentPhase := p`, `phaseStartTime := now`, `lastSwitchTime := now`);
a no-switch step leaves the state unchanged except that a zero
`phase_start_time` is initialized to `now`. -/
theorem control_state_update (cfg : Config) (st : IState) (cp : Nat)
    (data : TrafficData) (now : Int) :
    (∀ p, (control_intersection cfg st cp data now).2 = some p →
      (control_intersection cfg st cp data now).1 = ⟨p, now, now⟩) ∧
    ((control_intersection cfg st cp data now).2 = none →
      (control_intersection cfg st cp data now).1 =
        if st.phase_start_time = 0 then { st with phase_start_time := now } else st) := by
  constructor
  · intro p hp
    simp only [control_intersection] at hp ⊢
    split at hp <;> split at hp <;> simp_all
  · intro hp
    simp only [control_intersection] at hp ⊢
    split at hp <;> split at hp <;> simp_all

theorem control_state_update_witness :
    (control_intersection defaultConfig ⟨0, 1, 0⟩ 0 ⟨0, 0, 0⟩ 100).1 = ⟨2, 100, 100⟩ :=
  (control_state_update defaultConfig ⟨0, 1, 0⟩ 0 ⟨0, 0, 0⟩ 100).1 2 (by decide)

/-- C8 counterexample: one healthy main-road lane (5 halting vehicles)
plus one lane whose reads fail yields the all-zero snapshot — the
healthy lane's count does not contribute, refuting per-lane isolation. -/
theorem single_lane_failure_cex :
    laneReadsOk cexLaneA = true ∧ isMainLane cexLaneA = true ∧
      mainRoadSum [cexLaneA, cexLaneB] = 5 ∧
      get_traffic_data [cexLaneA, cexLaneB] =
        { main_road_waiting := 0, side_road_waiting := 0, total_waiting := 0 } := by
  refine ⟨by decide, by decide, by decide, by decide⟩

/-- C8 amended: `get_traffic_data` always returns a snapshot; when every
lane read succeeds the snapshot is the per-approach sums, and when any
lane read fails the whole snapshot is zero. -/
theorem get_traffic_data_total (lanes : List Lane) :
    (lanes.all laneReadsOk = true →
      get_traffic_data lanes =
        { main_road_waiting := mainRoadSum lanes
          side_road_waiting := sideRoadSum lanes
          total_waiting := mainRoadSum lanes + sideRoadSum lanes }) ∧
    (lanes.all laneReadsOk = false →
      get_traffic_data lanes =
        { main_road_waiting := 0, side_road_waiting := 0, total_waiting := 0 }) := by
  constructor
  · intro h
    simp only [get_traffic_data, h, if_pos, laneAccum_foldl]
    simp
  · intro h
    simp only [get_traffic_data, h]
    simp

theorem get_traffic_data_total_witness :
    get_traffic_data [cexLaneA] =
      { main_road_waiting := mainRoadSum [cexLaneA]
        side_road_waiting := sideRoadSum [cexLaneA]
        total_waiting := mainRoadSum [cexLaneA] + sideRoadSum [cexLaneA] } :=
  (get_traffic_data_total [cexLaneA]).1 (by decide)

/-! Helper lemmas for the preemptor. -/

theorem alGet_alSet_self (k : String) (v : Nat) (l : List (String × Nat)) :
    alGet k (alSet k v l) = some v := by
  induction l with
  | nil => simp [alSet, alGet]
  | cons kv rest ih =>
    obtain ⟨k', v'⟩ := kv
    by_cases h : k' = k
    · subst h
      simp [alSet, alGet]
    · simp [alSet, alGet, h, ih]

theorem alGet_alSet_ne (T k : String) (hne : k ≠ T) (v : Nat) (l : List (String × Nat)) :
    alGet T (alSet k v l) = alGet T l := by
  induction l with
  | nil => simp [alSet, alGet, hne]
  | cons kv rest ih =>
    obtain ⟨k', v'⟩ := kv
    by_cases h : k' = k
    · subst h
      simp [alSet, alGet, hne]
    · simp [alSet, alGet, h, ih]

theorem alGet_pair_mem (l : List (String × Nat)) (T : String) (v : Nat)
    (h : alGet T l = some v) : (T, v) ∈ l := by
  induction l with
  | nil => simp [alGet] at h
  | cons kv rest ih =>
    obtain ⟨k', v'⟩ := kv
    by_cases hk : k' = T
    · subst hk
      simp [alGet] at h
      simp [h]
    · simp [alGet, hk] at h
      simp [ih h]

theorem alGet_filter_listHas (act : List String) (l : List (String × Nat)) (T : String) :
    alGet T (l.filter (fun p => listHas p.1 act)) =
      (if listHas T act then alGet T l else none) := by
  induction l with
  | nil => simp [alGet]
  | cons kv rest ih =>
    obtain ⟨k', v'⟩ := kv
    by_cases hk : k' = T
    · subst hk
      by_cases hc : listHas k' act = true
      · simp [List.filter_cons, hc, alGet]
      · simp only [Bool.not_eq_true] at hc
        simp [List.filter_cons, hc, alGet, ih]
    · by_cases hc : listHas k' act = true
      · simp [List.filter_cons, hc, alGet, hk, ih]
      · simp only [Bool.not_eq_true] at hc
        simp [List.filter_cons, hc, alGet, hk, ih]

theorem vehStep_adjusted (env : String → TLSDef) (s : StepState) (v : Vehicle)
    (T : String) :
    alGet T (vehStep env s v).adjusted =
      (match requestOf env v with
        | some (t, p) => if t = T then some p else alGet T s.adjusted
        | none => alGet T s.adjusted) := by
  unfold vehStep
  cases hreq : requestOf env v with
  | none => simp
  | some tp =>
    obtain ⟨t, p⟩ := tp
    by_cases hT : t = T
    · subst hT
      by_cases hl : alGet t s.adjusted = some p
      · simp [hl]
      · simp only [hl, ne_eq, not_false_iff, if_pos, if_true]
        split <;> simp [alGet_alSet_self, hl]
    · by_cases hl : alGet t s.adjusted = some p
      · simp [hl, hT]
      · simp only [hl, hT, ne_eq, not_false_iff, if_pos, if_true, if_neg]
        split <;> simp [alGet_alSet_ne T t hT, hl, hT]

theorem vehStep_active (env : String → TLSDef) (s : StepState) (v : Vehicle)
    (T : String) :
    listHas T (vehStep env s v).active =
      ((match requestOf env v with
        | some (t, _) => decide (t = T)
        | none => false) || listHas T s.active) := by
  unfold vehStep
  cases hreq : requestOf env v with
  | none => simp
  | some tp =>
    obtain ⟨t, p⟩ := tp
    by_cases hl : alGet t s.adjusted = some p
    · simp [hl, listHas]
    · simp only [hl, ne_eq, not_false_iff, if_pos, if_true]
      split <;> simp [listHas]

theorem vehStep_cmds_shape (env : String → TLSDef) (s : StepState) (v : Vehicle) :
    (vehStep env s v).cmds = s.cmds ∨
      (∃ t p, requestOf env v = some (t, p) ∧
        ((vehStep env s v).cmds =
            s.cmds ++ [Cmd.setPhaseDuration t (extendedDuration (s.duration t))] ∨
          (vehStep env s v).cmds = s.cmds ++ [Cmd.setPhase t p, Cmd.setPhaseDuration t 10])) := by
  unfold vehStep
  cases hreq : requestOf env v with
  | none => simp
  | some tp =>
    obtain ⟨t, p⟩ := tp
    by_cases hl : alGet t s.adjusted = some p
    · simp [hl]
    · simp only [hl, ne_eq, not_false_iff, if_pos, if_true]
      split
      · exact Or.inr ⟨t, p, rfl, Or.inl rfl⟩
      · exact Or.inr ⟨t, p, rfl, Or.inr rfl⟩


theorem foldVeh_adjusted (env : String → TLSDef) (vs : List Vehicle) (s : StepState)
    (T : String) :
    alGet T (vs.foldl (vehStep env) s).adjusted =
      (match lastGrantedPhase env T vs with
        | some p => some p
        | none => alGet T s.adjusted) := by
  induction vs generalizing s with
  | nil => simp [lastGrantedPhase]
  | cons v vs ih =>
    simp only [List.foldl_cons, lastGrantedPhase]
    rw [ih, vehStep_adjusted]
    cases h : lastGrantedPhase env T vs with
    | some p => simp
    | none =>
      cases hreq : requestOf env v with
      | none => simp
      | some tp =>
        obtain ⟨t, p⟩ := tp
        by_cases hT : t = T
        · subst hT
          simp
        · simp [hT]

theorem foldVeh_active (env : String → TLSDef) (vs : List Vehicle) (s : StepState)
    (T : String) :
    listHas T (vs.foldl (vehStep env) s).active =
      (anyLiveRequest env T vs || listHas T s.active) := by
  induction vs generalizing s with
  | nil => simp [anyLiveRequest]
  | cons v vs ih =>
    simp only [List.foldl_cons, anyLiveRequest, List.any_cons]
    rw [ih, vehStep_active]
    simp [anyLiveRequest, Bool.or_assoc, Bool.or_comm, Bool.or_left_comm]

theorem lastGranted_isSome (env : String → TLSDef) (T : String) (vs : List Vehicle) :
    (lastGrantedPhase env T vs).isSome = anyLiveRequest env T vs := by
  induction vs with
  | nil => simp [lastGrantedPhase, anyLiveRequest]
  | cons v vs ih =>
    have hcons : anyLiveRequest env T (v :: vs) =
        ((match requestOf env v with
          | some (t, _) => decide (t = T)
          | none => false) || anyLiveRequest env T vs) := by
      simp [anyLiveRequest, List.any_cons]
    rw [hcons]
    simp only [lastGrantedPhase]
    cases h : lastGrantedPhase env T vs with
    | some p =>
      rw [← ih, h]
      simp
    | none =>
      rw [← ih, h]
      cases hreq : requestOf env v with
      | none => simp
      | some tp =>
        obtain ⟨t, p⟩ := tp
        by_cases hT : t = T
        · subst hT
          simp
        · simp [hT]

theorem vehStep_cmds_frame (env : String → TLSDef) (s : StepState) (v : Vehicle)
    (T : String) (p : Nat)
    (hadj : alGet T s.adjusted = some p)
    (hv : ∀ t q, requestOf env v = some (t, q) → t = T → q = p)
    (hcmds : ∀ c ∈ s.cmds, cmdTargets T c = false) :
    ∀ c ∈ (vehStep env s v).cmds, cmdTargets T c = false := by
  unfold vehStep
  cases hreq : requestOf env v with
  | none => exact hcmds
  | some tp =>
    obtain ⟨t, q⟩ := tp
    by_cases hT : t = T
    · subst hT
      have hq : q = p := hv t q hreq rfl
      subst hq
      simp [hadj]
      exact hcmds
    · by_cases hl : alGet t s.adjusted = some q
      · simp [hl]
        exact hcmds
      · simp only [hl, ne_eq, not_false_iff, if_pos, if_true]
        split
        · intro c hc
          rcases List.mem_append.mp hc with hc | hc
          · exact hcmds c hc
          · simp at hc
            simp [hc, cmdTargets, hT]
        · intro c hc
          rcases List.mem_append.mp hc with hc | hc
          · exact hcmds c hc
          · simp at hc
            rcases hc with hc | hc <;> simp [hc, cmdTargets, hT]

theorem foldVeh_frame (env : String → TLSDef) (vs : List Vehicle) (s : StepState)
    (T : String) (p : Nat)
    (hadj : alGet T s.adjusted = some p)
    (hall : ∀ v ∈ vs, ∀ t q, requestOf env v = some (t, q) → t = T → q = p)
    (hcmds : ∀ c ∈ s.cmds, cmdTargets T c = false) :
    alGet T (vs.foldl (vehStep env) s).adjusted = some p ∧
      ∀ c ∈ (vs.foldl (vehStep env) s).cmds, cmdTargets T c = false := by
  induction vs generalizing s with
  | nil => exact ⟨hadj, hcmds⟩
  | cons v vs ih =>
    simp only [List.foldl_cons]
    apply ih
    · rw [vehStep_adjusted]
      cases hreq : requestOf env v with
      | none => exact hadj
      | some tp =>
        obtain ⟨t, q⟩ := tp
        by_cases hT : t = T
        · have hq : q = p := hall v (by simp) t q hreq hT
          subst hT
          subst hq
          simp [hadj]
        · simp [hT, hadj]
    · intro v2 hv2 t q h1 h2
      exact hall v2 (by simp [hv2]) t q h1 h2
    · exact vehStep_cmds_frame env s v T p hadj (hall v (by simp)) hcmds

/-- C4: after a preemption step an intersection holds an `adjusted_tls`
record iff some emergency vehicle had a live, resolvable request for it
this step; an intersection that held a record and has no live request
this step has its record removed and a resumption signal emitted. -/
theorem preemption_record_liveness (env : String → TLSDef) (vehicles : List Vehicle)
    (adjusted0 : List (String × Nat)) (phase0 duration0 : String → Nat) (T : String) :
    ((alGet T (process_emergency_vehicles env vehicles adjusted0 phase0 duration0).adjusted).isSome
        ↔ anyLiveRequest env T (emergencyFilter vehicles) = true) ∧
      ((alGet T adjusted0).isSome = true →
        anyLiveRequest env T (emergencyFilter vehicles) = false →
        Cmd.resume T ∈ (process_emergency_vehicles env vehicles adjusted0 phase0 duration0).cmds) := by
  simp only [process_emergency_vehicles]
  have hact := foldVeh_active env (emergencyFilter vehicles)
    { adjusted := adjusted0, active := [], phase := phase0, duration := duration0, cmds := [] } T
  have hadj := foldVeh_adjusted env (emergencyFilter vehicles)
    { adjusted := adjusted0, active := [], phase := phase0, duration := duration0, cmds := [] } T
  simp only [listHas, Bool.or_false] at hact
  constructor
  · rw [alGet_filter_listHas, hact]
    cases hlive : anyLiveRequest env T (emergencyFilter vehicles) with
    | false => simp
    | true =>
      simp only [if_pos, if_true, hadj]
      have hsome := lastGranted_isSome env T (emergencyFilter vehicles)
      rw [hlive] at hsome
      cases hlg : lastGrantedPhase env T (emergencyFilter vehicles) with
      | none => rw [hlg] at hsome; simp at hsome
      | some q => simp
  · intro hsome0 hlive
    have hlg : lastGrantedPhase env T (emergencyFilter vehicles) = none := by
      have := lastGranted_isSome env T (emergencyFilter vehicles)
      rw [hlive] at this
      exact Option.not_isSome_iff_eq_none.mp (by simp [this])
    rw [hlg] at hadj
    simp only at hadj
    obtain ⟨w, hw⟩ := Option.isSome_iff_exists.mp hsome0
    rw [hw] at hadj
    apply List.mem_append.mpr
    right
    apply List.mem_map.mpr
    refine ⟨T, ?_, rfl⟩
    apply List.mem_map.mpr
    refine ⟨(T, w), ?_, rfl⟩
    apply List.mem_filter.mpr
    refine ⟨alGet_pair_mem _ T w hadj, ?_⟩
    rw [hact, hlive]
    simp

theorem preemption_record_liveness_witness :
    (alGet "J" (process_emergency_vehicles cexEnv [] [("J", 1)] (fun _ => 0)
        (fun _ => 30)).adjusted).isSome = false ∧
      Cmd.resume "J" ∈ (process_emergency_vehicles cexEnv [] [("J", 1)] (fun _ => 0)
        (fun _ => 30)).cmds := by
  constructor
  · have h := (preemption_record_liveness cexEnv [] [("J", 1)] (fun _ => 0) (fun _ => 30) "J").1
    cases hs : (alGet "J" (process_emergency_vehicles cexEnv [] [("J", 1)] (fun _ => 0)
        (fun _ => 30)).adjusted).isSome with
    | false => rfl
    | true => exact absurd (h.mp hs) (by decide)
  · exact (preemption_record_liveness cexEnv [] [("J", 1)] (fun _ => 0) (fun _ => 30) "J").2
      (by decide) (by decide)

/-- C5 counterexample: vehicle `v1` is closer (5 m) to light `J` and has
the smaller id, requesting phase 0; vehicle `v2` is farther (50 m),
requesting phase 1; after the step the granted phase is `v2`'s phase 1 —
the last-iterated request wins, not the closest vehicle's. -/
theorem closest_vehicle_cex :
    requestOf cexEnv cexVehA = some ("J", 0) ∧
      requestOf cexEnv cexVehB = some ("J", 1) ∧
      cexVehA.nextTLS = [("J", 0, 5, "G")] ∧
      cexVehB.nextTLS = [("J", 0, 50, "G")] ∧
      alGet "J" (process_emergency_vehicles cexEnv [cexVehA, cexVehB] [] (fun _ => 0)
        (fun _ => 30)).adjusted = some 1 :=
  ⟨by decide, by decide, rfl, rfl, by decide⟩

/-- C5 amended: when several emergency vehicles request phases for the
same intersection in one step, the phase recorded after the step is that
of the last such vehicle in iteration (registration) order, regardless
of distance or vehicle id. -/
theorem last_request_wins (env : String → TLSDef) (vehicles : List Vehicle)
    (adjusted0 : List (String × Nat)) (phase0 duration0 : String → Nat)
    (T : String) (p : Nat)
    (h : lastGrantedPhase env T (emergencyFilter vehicles) = some p) :
    alGet T (process_emergency_vehicles env vehicles adjusted0 phase0 duration0).adjusted =
      some p := by
  simp only [process_emergency_vehicles]
  have hact := foldVeh_active env (emergencyFilter vehicles)
    { adjusted := adjusted0, active := [], phase := phase0, duration := duration0, cmds := [] } T
  have hadj := foldVeh_adjusted env (emergencyFilter vehicles)
    { adjusted := adjusted0, active := [], phase := phase0, duration := duration0, cmds := [] } T
  simp only [listHas, Bool.or_false] at hact
  have hlive : anyLiveRequest env T (emergencyFilter vehicles) = true := by
    rw [← lastGranted_isSome, h]
    rfl
  rw [alGet_filter_listHas, hact, hlive, if_pos rfl, hadj, h]

theorem last_request_wins_witness :
    alGet "J" (process_emergency_vehicles cexEnv [cexVehA, cexVehB] [] (fun _ => 0)
      (fun _ => 30)).adjusted = some 1 :=
  last_request_wins cexEnv [cexVehA, cexVehB] [] (fun _ => 0) (fun _ => 30) "J" 1 (by decide)

/-- C6 counterexample: the extension rule is
`max(20, duration + 10)` — a lower clamp. No upper cap reproduces it:
at duration 5 the code yields 20 while `min cap (5 + 10) ≤ 15` for every
cap, so the result is not the increment clamped to a configured maximum. -/
theorem duration_clamp_cex :
    ¬ ∃ cap : Nat, ∀ d : Nat, extendedDuration d = min cap (d + 10) := by
  rintro ⟨cap, h⟩
  have h5 := h 5
  have h20 : extendedDuration 5 = 20 := by decide
  rw [h20] at h5
  have hle : min cap 15 ≤ 15 := min_le_right cap 15
  omega

/-- C6 amended: for a newly granted request (no record with the desired
phase yet): if the current phase equals the desired phase, the only
command issued is a duration extension to `max 20 (current + 10)` — an
increment of 10 clamped below by 20 — and no phase switch is commanded;
otherwise the commands are an immediate switch to the desired phase
followed by a fixed duration of 10. -/
theorem grant_command_shape (env : String → TLSDef) (s : StepState) (v : Vehicle)
    (T : String) (p : Nat)
    (hreq : requestOf env v = some (T, p))
    (hnew : alGet T s.adjusted ≠ some p) :
    (s.phase T = p →
      (vehStep env s v).cmds =
          s.cmds ++ [Cmd.setPhaseDuration T (extendedDuration (s.duration T))] ∧
        (vehStep env s v).phase = s.phase) ∧
    (s.phase T ≠ p →
      (vehStep env s v).cmds = s.cmds ++ [Cmd.setPhase T p, Cmd.setPhaseDuration T 10]) := by
  unfold vehStep
  rw [hreq]
  constructor
  · intro hcur
    constructor
    · simp [hnew, hcur]
    · simp [hnew, hcur]
  · intro hcur
    simp [hnew, hcur]

theorem grant_command_shape_witness :
    (vehStep cexEnv
        { adjusted := [], active := [], phase := fun _ => 0, duration := fun _ => 30,
          cmds := [] } cexVehA).cmds =
        [] ++ [Cmd.setPhaseDuration "J" (extendedDuration 30)] ∧
      (vehStep cexEnv
        { adjusted := [], active := [], phase := fun _ => 0, duration := fun _ => 30,
          cmds := [] } cexVehA).phase = (fun _ => 0) :=
  (grant_command_shape cexEnv
    { adjusted := [], active := [], phase := fun _ => 0, duration := fun _ => 30, cmds := [] }
    cexVehA "J" 0 (by decide) (by decide)).1 rfl

theorem findInPhases_findIdx (lanes : List String) (laneID : String)
    (phs : List TLPhase) (idx : Nat) :
    findInPhases lanes laneID phs idx =
      phs.findIdx? (fun ph => greenScan laneID ph.state lanes 0) idx := by
  induction phs generalizing idx with
  | nil => simp [findInPhases]
  | cons p ps ih =>
    by_cases h : greenScan laneID p.state lanes 0 = true
    · simp [findInPhases, h, List.findIdx?_cons]
    · simp only [Bool.not_eq_true] at h
      simp [findInPhases, h, List.findIdx?_cons, ih]

/-- C9: with a single program the phase resolved for a lane is the first
phase in definition order whose state marks the lane green (`findIdx?`),
and a vehicle whose lane resolves to no phase is ignored for the step —
the vehicle loop leaves the state (records, commands, everything)
untouched. -/
theorem lane_phase_resolution (env : String → TLSDef) (T laneID : String)
    (phs : List TLPhase) (lanes : List String) (s : StepState) (v : Vehicle) :
    (env T = { programs := [{ phases := phs }], controlledLanes := lanes } →
      find_phase_for_lane env T laneID =
        phs.findIdx? (fun ph => greenScan laneID ph.state lanes 0) 0) ∧
    ((∀ x rest, v.nextTLS = x :: rest → find_phase_for_lane env x.1 v.laneID = none) →
      vehStep env s v = s) := by
  constructor
  · intro henv
    simp only [find_phase_for_lane, henv, findInPrograms]
    rw [findInPhases_findIdx]
    cases phs.findIdx? (fun ph => greenScan laneID ph.state lanes 0) 0 <;> rfl
  · intro hnone
    have hreq : requestOf env v = none := by
      unfold requestOf
      cases hn : v.nextTLS with
      | nil => rfl
      | cons x rest =>
        obtain ⟨tlsID, a, b, c⟩ := x
        have hf := hnone (tlsID, a, b, c) rest hn
        simp only at hf
        simp [hf]
    unfold vehStep
    rw [hreq]

theorem lane_phase_resolution_witness :
    find_phase_for_lane cexEnv "J" "L2" =
        ([{ state := ['G', 'r'] }, { state := ['r', 'G'] }] : List TLPhase).findIdx?
          (fun ph => greenScan "L2" ph.state ["L1", "L2"] 0) 0 ∧
      vehStep cexEnv
          { adjusted := [], active := [], phase := fun _ => 0, duration := fun _ => 30,
            cmds := [] } cexVehC =
        { adjusted := [], active := [], phase := fun _ => 0, duration := fun _ => 30,
          cmds := [] } :=
  ⟨(lane_phase_resolution cexEnv "J" "L2" [{ state := ['G', 'r'] }, { state := ['r', 'G'] }]
      ["L1", "L2"]
      { adjusted := [], active := [], phase := fun _ => 0, duration := fun _ => 30, cmds := [] }
      cexVehC).1 rfl,
    (lane_phase_resolution cexEnv "J" "L2" [{ state := ['G', 'r'] }, { state := ['r', 'G'] }]
      ["L1", "L2"]
      { adjusted := [], active := [], phase := fun _ => 0, duration := fun _ => 30, cmds := [] }
      cexVehC).2 (by
        intro x rest h
        simp only [cexVehC] at h
        cases h
        decide)⟩

/-- C10: on a step where an intersection already holds a record and
every live request for it desires exactly the recorded phase, the
preemptor issues no `setPhase` or `setPhaseDuration` command for that
intersection. -/
theorem no_command_when_record_matches (env : String → TLSDef) (vehicles : List Vehicle)
    (adjusted0 : List (String × Nat)) (phase0 duration0 : String → Nat)
    (T : String) (p : Nat)
    (hadj : alGet T adjusted0 = some p)
    (hall : ∀ v ∈ emergencyFilter vehicles, ∀ t q,
      requestOf env v = some (t, q) → t = T → q = p) :
    ∀ c ∈ (process_emergency_vehicles env vehicles adjusted0 phase0 duration0).cmds,
      cmdTargets T c = false := by
  intro c hc
  simp only [process_emergency_vehicles] at hc
  rcases List.mem_append.mp hc with hc | hc
  · exact (foldVeh_frame env (emergencyFilter vehicles)
      { adjusted := adjusted0, active := [], phase := phase0, duration := duration0, cmds := [] }
      T p hadj hall (by simp)).2 c hc
  · rcases List.mem_map.mp hc with ⟨t, _, rfl⟩
    rfl

theorem no_command_when_record_matches_witness :
    cmdTargets "J" (Cmd.setPhaseDuration "K" 40) = false := by
  apply no_command_when_record_matches cexEnv [cexVehA, cexVehD] [("J", 0)] (fun _ => 0)
    (fun _ => 30) "J" 0 (by decide)
  · intro v hv t q h1 h2
    have he : emergencyFilter [cexVehA, cexVehD] = [cexVehA, cexVehD] := rfl
    rw [he] at hv
    simp only [List.mem_cons, List.not_mem_nil, or_false] at hv
    rcases hv with rfl | rfl
    · have h3 := (show requestOf cexEnv cexVehA = some ("J", 0) by decide).symm.trans h1
      simp only [Option.some.injEq, Prod.mk.injEq] at h3
      omega
    · have h3 := (show requestOf cexEnv cexVehD = some ("K", 0) by decide).symm.trans h1
      simp only [Option.some.injEq, Prod.mk.injEq] at h3
      subst h2
      exact absurd h3.1 (by decide)
  · decide


end Traffic
